import Mathlib

/-!
Verification of the recurrence engine of the sumire-api task tracker.

The development shallowly embeds the domain layer (`entities.py`, `utils.py`,
`entities_new.py`) and the relevant slice of the service layer
(`task_service.py`). Python `datetime` instants are modelled by their date
component only: every arithmetic step of the recurrence engine moves dates by
whole days, months or years and preserves the time of day, so all comparisons
between the instants the engine produces reduce to date comparisons (the spec
explicitly excludes sub-day granularity).
-/

namespace Sumire

/-- Proleptic Gregorian calendar date: the date component of a Python
`datetime`. -/
structure Date where
  year : Nat
  month : Nat
  day : Nat
deriving DecidableEq

/-- Gregorian leap-year test, as Python's `calendar.isleap`. -/
def isLeap (y : Nat) : Bool :=
  decide (y % 4 = 0 ∧ (y % 100 ≠ 0 ∨ y % 400 = 0))

/-- Month lengths for a year, by leap flag. -/
def monthLens (leap : Bool) : List Nat :=
  [31, if leap then 29 else 28, 31, 30, 31, 30, 31, 31, 30, 31, 30, 31]

/-- Number of days in month `m` of year `y` (`calendar.monthrange(y, m)[1]`). -/
def daysInMonth (y m : Nat) : Nat :=
  (monthLens (isLeap y)).getD (m - 1) 0

/-- Total days in the months of year `y` strictly before month `m`. -/
def daysBeforeMonth (y m : Nat) : Nat :=
  ((monthLens (isLeap y)).take (m - 1)).sum

/-- Days in all years strictly before year `y` (years start at 1). -/
def daysBeforeYear (y : Nat) : Nat :=
  365 * (y - 1) + (y - 1) / 4 - (y - 1) / 100 + (y - 1) / 400

/-- Day count since 0001-01-01, i.e. Python's `date.toordinal() - 1`. -/
def Date.dayNumber (t : Date) : Nat :=
  daysBeforeYear t.year + daysBeforeMonth t.year t.month + (t.day - 1)

/-- Python `date.weekday()`: 0 = Monday … 6 = Sunday. 0001-01-01 was a Monday. -/
def Date.weekday (t : Date) : Nat :=
  t.dayNumber % 7

/-- The date is one Python's `datetime` can represent (time component aside). -/
def Date.Valid (t : Date) : Prop :=
  1 ≤ t.year ∧ 1 ≤ t.month ∧ t.month ≤ 12 ∧ 1 ≤ t.day ∧ t.day ≤ daysInMonth t.year t.month

instance (t : Date) : Decidable t.Valid := by
  unfold Date.Valid; infer_instance

/-- Move one day forward (the successor step of `timedelta` arithmetic). -/
def nextDay (t : Date) : Date :=
  if t.day < daysInMonth t.year t.month then ⟨t.year, t.month, t.day + 1⟩
  else if t.month < 12 then ⟨t.year, t.month + 1, 1⟩
  else ⟨t.year + 1, 1, 1⟩

/-- Move one day backward. Python raises `OverflowError` below 0001-01-01; no
claim exercises that edge, and the function is left total there. -/
def prevDay (t : Date) : Date :=
  if 1 < t.day then ⟨t.year, t.month, t.day - 1⟩
  else if 1 < t.month then ⟨t.year, t.month - 1, daysInMonth t.year (t.month - 1)⟩
  else ⟨t.year - 1, 12, 31⟩

/-- `d + timedelta(days=n)` for `n ≥ 0`. -/
def addDays (t : Date) (n : Nat) : Date :=
  nextDay^[n] t

/-- `d - timedelta(days=n)` for `n ≥ 0`. -/
def subDays (t : Date) (n : Nat) : Date :=
  prevDay^[n] t

/-- `d + relativedelta(days=n)` for a possibly negative `n`. -/
def addDaysI (t : Date) (n : Int) : Date :=
  if 0 ≤ n then addDays t n.toNat else subDays t (-n).toNat

/-- `d + relativedelta(months=n)` (dateutil): advance the absolute month index
`12*year + (month-1)` by `n` with floor division/remainder — equivalent to
dateutil's normalisation of months into years followed by its single
month-overflow correction — then clamp the day to the target month's length
with `min(calendar.monthrange(y, m)[1], day)`. Python raises for a resulting
year below 1; no claim exercises that edge (`Int.toNat` clamps instead). -/
def addMonthsI (t : Date) (n : Int) : Date :=
  let total : Int := 12 * (t.year : Int) + ((t.month : Int) - 1) + n
  let y : Nat := (total.ediv 12).toNat
  let m : Nat := (total.emod 12).toNat + 1
  ⟨y, m, min (daysInMonth y m) t.day⟩

/-- `d + relativedelta(years=n)` (dateutil): add `n` to the year and clamp the
day with `min(calendar.monthrange(y, m)[1], day)` (Feb 29 → Feb 28). -/
def addYearsI (t : Date) (n : Int) : Date :=
  let y : Nat := ((t.year : Int) + n).toNat
  ⟨y, t.month, min (daysInMonth y t.month) t.day⟩

/-- `d + relativedelta(weekday=w)`: move forward to the next date whose weekday
is `w`, staying put when `d` already falls on `w`. -/
def relNextWeekday (t : Date) (w : Nat) : Date :=
  addDays t ((w + 7 - t.weekday) % 7)

/-- `get_start_date_of_current_week` (utils.py):
`reference + relativedelta(weekday=start_weekday(-1))`, the most recent date
whose weekday is `startWd`, possibly `reference` itself. -/
def get_start_date_of_current_week (reference : Date) (startWd : Nat) : Date :=
  subDays reference ((reference.weekday + 7 - startWd) % 7)

/-- `RepeatInterval` (enums.py). -/
inductive RepeatInterval
  | days
  | weeks
  | months
  | years
deriving DecidableEq

/-- `RepeatType` (enums.py). -/
inductive RepeatType
  | daily
  | weekdays
  | weekly
  | monthly
  | yearly
  | custom
deriving DecidableEq

/-- The error kinds surfaced by the embedded code: the two domain exception
classes of `exceptions.py` plus Python's builtin `ValueError` and `TypeError`,
which several code paths raise directly. -/
inductive DomainError
  | invalidEntityState
  | businessRuleViolation
  | valueError
  | typeError
deriving DecidableEq

instance {ε α : Type} [DecidableEq ε] [DecidableEq α] : DecidableEq (Except ε α)
  | .error e, .error f => decidable_of_iff (e = f) (by simp)
  | .error _, .ok _ => isFalse (by simp)
  | .ok _, .error _ => isFalse (by simp)
  | .ok a, .ok b => decidable_of_iff (a = b) (by simp)

/-- `START_WEEKDAY` (constants.py): `SU`, weekday number 6. -/
def START_WEEKDAY : Nat := 6

/-- `WEEKDAYS` (constants.py): `[MO, TU, WE, TH, FR]` as weekday numbers. -/
def WEEKDAYS : List Nat := [0, 1, 2, 3, 4]

/-- `find_next_due_date` (utils.py). Weekday arguments are modelled by their
weekday numbers (dateutil accepts both ints and weekday objects here, with the
same meaning). A `None` interval falls into the `case _` arm and yields no
result; a `None` weekday list raises `TypeError` at `len(...)`; an empty list
raises `ValueError`; a `None` factor raises `TypeError` inside `relativedelta`
at the point it is first used. -/
def find_next_due_date (due : Date) (repeat_interval : Option RepeatInterval)
    (repeat_factor : Option Int) (repeat_allowed_weekdays : Option (List Nat))
    (start_weekday : Nat) : Except DomainError (Option Date) :=
  match repeat_interval with
  | some .days =>
    match repeat_factor with
    | none => .error .typeError
    | some f => .ok (some (addDaysI due f))
  | some .months =>
    match repeat_factor with
    | none => .error .typeError
    | some f => .ok (some (addMonthsI due f))
  | some .years =>
    match repeat_factor with
    | none => .error .typeError
    | some f => .ok (some (addYearsI due f))
  | some .weeks =>
    match repeat_allowed_weekdays with
    | none => .error .typeError
    | some [] => .error .valueError
    | some (w0 :: ws) =>
      let start := get_start_date_of_current_week due start_weekday
      let lastCur := addDays start 6
      match (w0 :: ws).findSome? (fun w =>
          let c := relNextWeekday start w
          if due.dayNumber < c.dayNumber ∧ c.dayNumber ≤ lastCur.dayNumber then
            some c
          else none) with
      | some c => .ok (some c)
      | none =>
        match repeat_factor with
        | none => .error .typeError
        | some f =>
          let start2 := addDaysI start (7 * f)
          .ok (some (relNextWeekday start2 w0))
  | none => .ok none

/-- `Repeat` (entities.py). The `Set[int]` of allowed weekdays is modelled as a
list; `find_next_date` only tests membership, for which the representation is
irrelevant. -/
structure Repeat where
  interval : RepeatInterval
  factor : Int
  allowed_weekdays : Option (List Nat)
deriving DecidableEq

/-- `Repeat.find_next_date` (entities.py). The weekly case scans day offsets
1..6 from the week start in the current week, then in the week starting
`factor` weeks later; when neither loop hits, the Python function falls off the
end and implicitly returns `None`. A `None` weekday set would raise `TypeError`
at the membership test; that unreachable-for-valid-rules path is modelled as no
result. -/
def Repeat.find_next_date (r : Repeat) (reference_date : Date)
    (start_weekday : Nat) : Option Date :=
  match r.interval with
  | .days => some (addDaysI reference_date r.factor)
  | .months => some (addMonthsI reference_date r.factor)
  | .years => some (addYearsI reference_date r.factor)
  | .weeks =>
    match r.allowed_weekdays with
    | none => none
    | some allowed =>
      let start := get_start_date_of_current_week reference_date start_weekday
      let lastCur := addDays start 6
      match (List.range' 1 6).findSome? (fun j =>
          let c := addDays start j
          if allowed.contains c.weekday ∧ reference_date.dayNumber < c.dayNumber ∧
              c.dayNumber ≤ lastCur.dayNumber then
            some c
          else none) with
      | some c => some c
      | none =>
        let start2 := addDaysI start (7 * r.factor)
        let lastNext := addDays start2 6
        (List.range' 1 6).findSome? (fun j =>
          let c := addDays start2 j
          if allowed.contains c.weekday ∧ reference_date.dayNumber < c.dayNumber ∧
              c.dayNumber ≤ lastNext.dayNumber then
            some c
          else none)

/-- `Step` (entities.py); only its presence on a task matters to any claim. -/
structure Step where
  description : String
deriving DecidableEq

/-- `Task` (entities.py), fields in dataclass order. The auto-generated
`id`/`created_at`/`updated_at` are externally assigned opaque identity per the
spec and are not modelled. `title` has Python default `None`, hence
`Option String`. -/
structure Task where
  title : Option String
  note : Option String
  steps : List Step
  due_date : Option Date
  is_completed : Bool
  is_important : Bool
  repeat_type : Option RepeatType
  repeat_interval : Option RepeatInterval
  repeat_factor : Option Int
  repeat_allowed_days : Option (List Nat)
deriving DecidableEq

/-- The `Task` dataclass constructor (entities.py). The dataclass declares no
validation hook, so construction just assigns the fields; it can never fail. -/
def task_init (title note : Option String) (steps : List Step)
    (due_date : Option Date) (is_completed is_important : Bool)
    (repeat_type : Option RepeatType) (repeat_interval : Option RepeatInterval)
    (repeat_factor : Option Int) (repeat_allowed_days : Option (List Nat)) :
    Except DomainError Task :=
  .ok ⟨title, note, steps, due_date, is_completed, is_important,
       repeat_type, repeat_interval, repeat_factor, repeat_allowed_days⟩

/-- `Task.is_due` (entities.py). The Python method takes no parameter beyond
`self`; it calls `datetime.now()` internally. `ambient_now` models the value of
that hidden wall-clock read. A task with no due date is never due; otherwise
the task is due when the clock has reached the due date. -/
def Task.is_due (t : Task) (ambient_now : Date) : Bool :=
  match t.due_date with
  | none => false
  | some d => decide (d.dayNumber ≤ ambient_now.dayNumber)

/-- `Task.clear_repeat_config` (entities.py). -/
def Task.clear_repeat_config (t : Task) : Task :=
  { t with repeat_type := none, repeat_interval := none, repeat_factor := none,
           repeat_allowed_days := none }

/-- `Task.set_repeat_config` (entities.py). Python's truthiness tests reject
`None` and `0` factors alike. Python mutates field by field and raises on the
first bad value; the partially-updated state on the error path is not observed
by any claim, so the embedding returns the fully-updated task or the error. -/
def Task.set_repeat_config (t : Task) (repeat_interval : Option RepeatInterval)
    (repeat_factor : Option Int) (repeat_allowed_days : Option (List Nat)) :
    Except DomainError Task :=
  match repeat_interval with
  | none => .error .valueError
  | some i =>
    if repeat_factor = none ∨ repeat_factor = some 0 then .error .valueError
    else
      let t1 : Task := { t with repeat_interval := some i, repeat_factor := repeat_factor }
      if i = .weeks then
        match repeat_allowed_days with
        | none => .error .valueError
        | some [] => .error .valueError
        | some l => .ok { t1 with repeat_allowed_days := some l }
      else .ok { t1 with repeat_allowed_days := none }

/-- `Task.set_repeat` (entities.py). `ambient_now` models the `datetime.now()`
fallback used when the task has no due date. In the WEEKDAYS arm, Python tests
`self.due_date.weekday() not in WEEKDAYS` where `WEEKDAYS` holds dateutil
weekday objects: an int never equals a weekday object, so the test is always
true and the due date is always re-derived via `find_next_due_date` with
`[MO]`. -/
def Task.set_repeat (t : Task) (ambient_now : Date) (rt : RepeatType)
    (repeat_interval : Option RepeatInterval) (repeat_factor : Option Int)
    (repeat_allowed_days : Option (List Nat)) : Except DomainError Task :=
  let t0 : Task :=
    match t.due_date with
    | none => { t with due_date := some ambient_now }
    | some _ => t
  let t1 : Task := { t0 with repeat_type := some rt }
  match rt with
  | .daily => t1.set_repeat_config (some .days) (some 1) none
  | .weekdays =>
    match t1.set_repeat_config (some .weeks) (some 1) (some WEEKDAYS) with
    | .error e => .error e
    | .ok t2 =>
      match t2.due_date with
      | none => .error .typeError
      | some d =>
        match find_next_due_date d (some .weeks) (some 1) (some [0]) START_WEEKDAY with
        | .error e => .error e
        | .ok nd => .ok { t2 with due_date := nd }
  | .weekly =>
    match t1.due_date with
    | none => .error .typeError
    | some d => t1.set_repeat_config (some .weeks) (some 1) (some [d.weekday])
  | .monthly => t1.set_repeat_config (some .months) (some 1) none
  | .yearly => t1.set_repeat_config (some .years) (some 1) none
  | .custom => t1.set_repeat_config repeat_interval repeat_factor repeat_allowed_days

/-- `Task.set_due_date` (entities.py): clearing the due date also clears the
whole repeat configuration; setting it re-runs `set_repeat` when a repeat type
is present. -/
def Task.set_due_date (t : Task) (ambient_now : Date) (due : Option Date) :
    Except DomainError Task :=
  match due with
  | none => .ok (Task.clear_repeat_config { t with due_date := none })
  | some d =>
    let t1 : Task := { t with due_date := some d }
    match t1.repeat_type with
    | none => .ok t1
    | some rt =>
      t1.set_repeat ambient_now rt t1.repeat_interval t1.repeat_factor t1.repeat_allowed_days

/-- `Task.complete` (entities.py). Python first sets `is_completed = True`,
then, when a repeat type is present, computes the next due date (a `None` due
date would raise `TypeError` inside `relativedelta` addition), builds the
successor via the `Task` constructor (fresh `steps`), and finally clears the
original's repeat configuration. The returned pair is the mutated original
together with the outcome (the optional successor, or the raised error). -/
def Task.complete (t : Task) : Task × Except DomainError (Option Task) :=
  let t1 : Task := { t with is_completed := true }
  match t1.repeat_type with
  | none => (t1.clear_repeat_config, .ok none)
  | some _ =>
    match t1.due_date with
    | none => (t1, .error .typeError)
    | some d =>
      match find_next_due_date d t1.repeat_interval t1.repeat_factor
          t1.repeat_allowed_days START_WEEKDAY with
      | .error e => (t1, .error e)
      | .ok nd =>
        let succ : Task := ⟨t1.title, t1.note, [], nd, false, t1.is_important,
                            t1.repeat_type, t1.repeat_interval, t1.repeat_factor,
                            t1.repeat_allowed_days⟩
        (t1.clear_repeat_config, .ok (some succ))

/-- Modelled from the spec: `Task.create_new_repeating_task`, which
`TaskService.complete_task` calls but which is absent from `entities.py`. Per
the spec's completion lifecycle, it computes the successor of a repeating task
from the current due date and rule, without mutating the original, and yields
nothing for a non-repeating task. -/
def Task.create_new_repeating_task (t : Task) : Except DomainError (Option Task) :=
  match t.repeat_type with
  | none => .ok none
  | some _ =>
    match t.due_date with
    | none => .error .typeError
    | some d =>
      match find_next_due_date d t.repeat_interval t.repeat_factor
          t.repeat_allowed_days START_WEEKDAY with
      | .error e => .error e
      | .ok nd =>
        .ok (some ⟨t.title, t.note, [], nd, false, t.is_important,
                   t.repeat_type, t.repeat_interval, t.repeat_factor,
                   t.repeat_allowed_days⟩)

/-- `TaskService.complete_task` (task_service.py), with repository lookup and
persistence replaced by the task value itself (out of scope per the spec). The
already-completed guard raises Python's builtin `ValueError` before any
mutation; otherwise the successor is generated, then the original is marked
completed and its repeat cleared. -/
def complete_task (t : Task) : Except DomainError (Task × Option Task) :=
  if t.is_completed then .error .valueError
  else
    match t.create_new_repeating_task with
    | .error e => .error e
    | .ok succ => .ok (Task.clear_repeat_config { t with is_completed := true }, succ)

/-- `Frequency` (entities_new.py): storage codes 0..3. -/
inductive Frequency
  | yearly
  | monthly
  | weekly
  | daily
deriving DecidableEq

/-- The storage code of a frequency (`IntEnum` value). -/
def Frequency.code : Frequency → Nat
  | .yearly => 0
  | .monthly => 1
  | .weekly => 2
  | .daily => 3

/-- The `Repeat` class hierarchy of entities_new.py, consolidated as a tagged
record (`YearlyRepeat`/`MonthlyRepeat`/`WeeklyRepeat`/`DailyRepeat` each fix
`frequency` and only `WeeklyRepeat` carries a weekday set). Named `RepeatRule`
because `Repeat` already names the entities.py dataclass. -/
structure RepeatRule where
  frequency : Frequency
  interval : Int
  allowed_weekdays : Option (Finset Nat)
deriving DecidableEq

/-- One step of `set(map(int, s))`: a non-digit character raises `ValueError`,
which `WeeklyRepeat.__post_init__` converts to an invalid-state error. -/
def parseDigitsAux : Except DomainError (Finset Nat) → Char → Except DomainError (Finset Nat)
  | .error e, _ => .error e
  | .ok A, c => if c.isDigit then .ok (insert (c.toNat - 48) A) else .error .invalidEntityState

/-- `set(map(int, s))` over the characters of the weekday-digit string. -/
def parseDigits (s : String) : Except DomainError (Finset Nat) :=
  s.data.foldl parseDigitsAux (.ok ∅)

/-- `Repeat.__post_init__` (entities_new.py): the interval must be present and
at least 1. (The frequency is always supplied by the concrete subclass.) -/
def checkIntervalNew : Option Int → Except DomainError Int
  | none => .error .invalidEntityState
  | some i => if i < 1 then .error .invalidEntityState else .ok i

/-- Construction of `YearlyRepeat`/`MonthlyRepeat`/`DailyRepeat`
(entities_new.py): only the shared interval validation runs; any supplied
weekday digits are ignored. -/
def mkPlainRepeat (f : Frequency) (interval : Option Int) :
    Except DomainError RepeatRule :=
  match checkIntervalNew interval with
  | .error e => .error e
  | .ok i => .ok ⟨f, i, none⟩

/-- `WeeklyRepeat.__post_init__` (entities_new.py): interval validation, then
the weekday argument must be present and non-empty, is parsed from a digit
string into a set of ints, and every member must lie in 0..6. -/
def mkWeeklyRepeat (interval : Option Int) (digits : Option String) :
    Except DomainError RepeatRule :=
  match checkIntervalNew interval with
  | .error e => .error e
  | .ok i =>
    match digits with
    | none => .error .invalidEntityState
    | some s =>
      if s.length = 0 then .error .invalidEntityState
      else
        match parseDigits s with
        | .error e => .error e
        | .ok A =>
          if ∃ w ∈ A, 6 < w then .error .invalidEntityState
          else .ok ⟨.weekly, i, some A⟩

/-- `RepeatFactory.create_repeat` (entities_new.py). The frequency argument is
its storage code (`IntEnum` value patterns match plain ints); a code outside
0..3 — including an absent code with other arguments present — falls to the
`case _` arm and raises a business-rule violation. -/
def create_repeat (frequency : Option Nat) (interval : Option Int)
    (allowed_weekdays : Option String) : Except DomainError (Option RepeatRule) :=
  if frequency = none ∧ interval = none ∧ allowed_weekdays = none then .ok none
  else
    match frequency with
    | some c =>
      if c = 0 then
        match mkPlainRepeat .yearly interval with
        | .error e => .error e
        | .ok r => .ok (some r)
      else if c = 1 then
        match mkPlainRepeat .monthly interval with
        | .error e => .error e
        | .ok r => .ok (some r)
      else if c = 2 then
        match mkWeeklyRepeat interval allowed_weekdays with
        | .error e => .error e
        | .ok r => .ok (some r)
      else if c = 3 then
        match mkPlainRepeat .daily interval with
        | .error e => .error e
        | .ok r => .ok (some r)
      else .error .businessRuleViolation
    | none => .error .businessRuleViolation

/-- Modelled from the spec: `set_weekdays_to_str_weekdays`, which the DTO and
persistence layers import from `domain.utils` but which is absent from the
repository's `utils.py`. Per the spec, the weekday set is serialized as its
digits concatenated in ascending order; weekday sets are subsets of 0..6, so
filtering the ascending range 0..6 by membership enumerates exactly the set in
ascending order, each digit at most once. -/
def set_weekdays_to_str_weekdays (A : Finset Nat) : String :=
  String.mk (((List.range 7).filter (· ∈ A)).map (fun n => Char.ofNat (48 + n)))

/-- Modelled from the spec: `RuleFactory.decompose`, the storage-serialization
direction of spec §4.3; only its callers (DTO/persistence serialization of
frequency code, interval and weekday digits) exist in the repository. -/
def decompose (r : Option RepeatRule) : Option Nat × Option Int × Option String :=
  match r with
  | none => (none, none, none)
  | some rr =>
    (some rr.frequency.code, some rr.interval,
     rr.allowed_weekdays.map set_weekdays_to_str_weekdays)

/-- The claim's canonical form of a weekday-digit string: the set of its
digits, serialized in ascending order with duplicates collapsed, independent of
the input order. -/
def canonicalDigits (s : String) : String :=
  set_weekdays_to_str_weekdays (s.data.foldl (fun A c => insert (c.toNat - 48) A) ∅)

/-- The Monthly rule as the claim words it: advance the month index by `n`;
keep the day of month when it still exists in the target month, otherwise take
the target month's last day. -/
def addMonthsSpec (t : Date) (n : Int) : Date :=
  let total : Int := 12 * (t.year : Int) + ((t.month : Int) - 1) + n
  let y : Nat := (total.ediv 12).toNat
  let m : Nat := (total.emod 12).toNat + 1
  if t.day ≤ daysInMonth y m then ⟨y, m, t.day⟩ else ⟨y, m, daysInMonth y m⟩

/-- The Yearly rule as the claim words it: add `n` years; keep the day when it
still exists in the target month, otherwise take that month's last day. -/
def addYearsSpec (t : Date) (n : Int) : Date :=
  let y : Nat := ((t.year : Int) + n).toNat
  if t.day ≤ daysInMonth y t.month then ⟨y, t.month, t.day⟩
  else ⟨y, t.month, daysInMonth y t.month⟩

/-! ### Date arithmetic lemmas -/

theorem daysInMonth_pos (y m : Nat) (h1 : 1 ≤ m) (h2 : m ≤ 12) :
    1 ≤ daysInMonth y m := by
  interval_cases m <;> cases hb : isLeap y <;> simp [daysInMonth, monthLens, hb]

theorem daysBeforeMonth_succ (y m : Nat) (h1 : 1 ≤ m) (h2 : m ≤ 11) :
    daysBeforeMonth y (m + 1) = daysBeforeMonth y m + daysInMonth y m := by
  interval_cases m <;> cases hb : isLeap y <;>
    simp [daysBeforeMonth, daysInMonth, monthLens, hb]

theorem daysBeforeYear_eq (y : Nat) :
    daysBeforeYear y = 365 * (y - 1) + (y - 1) / 4 - (y - 1) / 100 + (y - 1) / 400 := rfl

set_option maxHeartbeats 1600000 in
theorem daysBeforeYear_succ (y : Nat) (hy : 1 ≤ y) :
    daysBeforeYear (y + 1) = daysBeforeYear y + daysBeforeMonth y 12 + daysInMonth y 12 := by
  obtain ⟨k, rfl⟩ : ∃ k, y = k + 1 := ⟨y - 1, by omega⟩
  by_cases hL : (k + 1) % 4 = 0 ∧ ((k + 1) % 100 ≠ 0 ∨ (k + 1) % 400 = 0)
  · have hb : isLeap (k + 1) = true := by unfold isLeap; exact decide_eq_true hL
    have h1 : daysBeforeMonth (k + 1) 12 = 335 := by
      unfold daysBeforeMonth; rw [hb]; decide
    have h2 : daysInMonth (k + 1) 12 = 31 := by
      unfold daysInMonth; rw [hb]; decide
    rw [h1, h2, daysBeforeYear_eq, daysBeforeYear_eq]
    omega
  · have hb : isLeap (k + 1) = false := by unfold isLeap; exact decide_eq_false hL
    have h1 : daysBeforeMonth (k + 1) 12 = 334 := by
      unfold daysBeforeMonth; rw [hb]; decide
    have h2 : daysInMonth (k + 1) 12 = 31 := by
      unfold daysInMonth; rw [hb]; decide
    rw [h1, h2, daysBeforeYear_eq, daysBeforeYear_eq]
    rcases (by tauto : (k + 1) % 4 ≠ 0 ∨ ((k + 1) % 100 = 0 ∧ (k + 1) % 400 ≠ 0)) with hc | hc
    · clear hb hL hy h1 h2
      omega
    · clear hb hL hy h1 h2
      omega

theorem nextDay_eq (y m d : Nat) :
    nextDay ⟨y, m, d⟩ =
      if d < daysInMonth y m then ⟨y, m, d + 1⟩
      else if m < 12 then ⟨y, m + 1, 1⟩ else ⟨y + 1, 1, 1⟩ := rfl

theorem dayNumber_eq (y m d : Nat) :
    Date.dayNumber ⟨y, m, d⟩ = daysBeforeYear y + daysBeforeMonth y m + (d - 1) := rfl

theorem valid_nextDay (t : Date) (h : t.Valid) : (nextDay t).Valid := by
  obtain ⟨y, m, d⟩ := t
  dsimp only [Date.Valid] at h
  obtain ⟨h1, h2, h3, h4, h5⟩ := h
  rw [nextDay_eq]
  split_ifs with hd hm
  · refine ⟨h1, h2, h3, ?_, ?_⟩ <;> dsimp only <;> omega
  · refine ⟨h1, ?_, ?_, ?_, ?_⟩ <;> dsimp only
    · omega
    · omega
    · omega
    · exact daysInMonth_pos y (m + 1) (by omega) (by omega)
  · refine ⟨?_, ?_, ?_, ?_, ?_⟩ <;> dsimp only
    · omega
    · omega
    · omega
    · omega
    · exact daysInMonth_pos (y + 1) 1 (by omega) (by omega)

theorem dayNumber_nextDay (t : Date) (h : t.Valid) :
    (nextDay t).dayNumber = t.dayNumber + 1 := by
  obtain ⟨y, m, d⟩ := t
  dsimp only [Date.Valid] at h
  obtain ⟨h1, h2, h3, h4, h5⟩ := h
  rw [nextDay_eq]
  split_ifs with hd hm
  · rw [dayNumber_eq, dayNumber_eq]
    omega
  · rw [dayNumber_eq, dayNumber_eq]
    have hs := daysBeforeMonth_succ y m h2 (by omega)
    have hp := daysInMonth_pos y m h2 h3
    omega
  · rw [dayNumber_eq, dayNumber_eq]
    have hm12 : m = 12 := by omega
    subst hm12
    have hy := daysBeforeYear_succ y h1
    have hp := daysInMonth_pos y 12 (by omega) (by omega)
    have hz : daysBeforeMonth (y + 1) 1 = 0 := rfl
    omega

theorem addDays_spec (t : Date) (h : t.Valid) (k : Nat) :
    (addDays t k).Valid ∧ (addDays t k).dayNumber = t.dayNumber + k := by
  induction k with
  | zero => simpa [addDays] using h
  | succ n ih =>
    have hstep : addDays t (n + 1) = nextDay (addDays t n) := by
      simp [addDays, Function.iterate_succ_apply']
    rw [hstep]
    refine ⟨valid_nextDay _ ih.1, ?_⟩
    rw [dayNumber_nextDay _ ih.1, ih.2]
    omega

/-! ### Claim theorems -/

/-- Claim C1 (code bug): `Repeat.find_next_date` does not return a strictly
later instant for every validly constructed rule. For the valid Weekly rule
allowing only Sunday (weekday 6, the configured week start) with factor 1, the
scan loops only visit offsets 1..6 from the week start and never the start day
itself, so both loops miss and the function falls off the end with no result —
while `find_next_due_date` returns the required next Sunday for the same
rule. -/
theorem find_next_date_none_on_sunday_only_rule :
    Repeat.find_next_date ⟨.weeks, 1, some [6]⟩ ⟨2025, 1, 6⟩ START_WEEKDAY = none ∧
    find_next_due_date ⟨2025, 1, 6⟩ (some .weeks) (some 1) (some [6]) START_WEEKDAY =
      .ok (some ⟨2025, 1, 12⟩) ∧
    Date.weekday ⟨2025, 1, 6⟩ = 0 := by
  refine ⟨?_, ?_, ?_⟩ <;> decide

/-- Claim C2: for Daily, Monthly and Yearly rules with interval `n ≥ 1` and any
valid instant, the computed next date is the reference date plus `n` days
(characterized by its day count), plus `n` calendar months, or plus `n`
calendar years, where the month/year cases keep the day of month when it exists
in the target month and clamp to the target month's last day otherwise. -/
theorem next_date_daily_monthly_yearly :
    ∀ (t : Date) (n : Int) (wd : Option (List Nat)) (s : Nat),
      t.Valid → 1 ≤ n →
      find_next_due_date t (some .days) (some n) wd s = .ok (some (addDays t n.toNat)) ∧
      (addDays t n.toNat).Valid ∧
      (addDays t n.toNat).dayNumber = t.dayNumber + n.toNat ∧
      find_next_due_date t (some .months) (some n) wd s = .ok (some (addMonthsSpec t n)) ∧
      find_next_due_date t (some .years) (some n) wd s = .ok (some (addYearsSpec t n)) := by
  intro t n wd s hv hn
  have h0 : (0 : Int) ≤ n := by omega
  have hd := addDays_spec t hv n.toNat
  refine ⟨?_, hd.1, hd.2, ?_, ?_⟩
  · simp [find_next_due_date, addDaysI, h0]
  · have hm : addMonthsI t n = addMonthsSpec t n := by
      simp only [addMonthsI, addMonthsSpec]
      generalize ((12 * (t.year : Int) + ((t.month : Int) - 1) + n).ediv 12).toNat = Y
      generalize (((12 * (t.year : Int) + ((t.month : Int) - 1) + n).emod 12).toNat + 1) = M
      split_ifs with hle
      · rw [Nat.min_eq_right hle]
      · rw [Nat.min_eq_left (by omega)]
    simp only [find_next_due_date]
    rw [hm]
  · have hy : addYearsI t n = addYearsSpec t n := by
      simp only [addYearsI, addYearsSpec]
      generalize ((t.year : Int) + n).toNat = Y
      split_ifs with hle
      · rw [Nat.min_eq_right hle]
      · rw [Nat.min_eq_left (by omega)]
    simp only [find_next_due_date]
    rw [hy]

/-- Witness for C2, including the claim's clamping examples: Jan 31 2025 plus
one month is Feb 28 2025, and Feb 29 2024 plus one year is Feb 28 2025. -/
theorem next_date_daily_monthly_yearly_witness :
    find_next_due_date ⟨2025, 1, 31⟩ (some .months) (some 1) none 6 = .ok (some ⟨2025, 2, 28⟩) ∧
    find_next_due_date ⟨2024, 2, 29⟩ (some .years) (some 1) none 6 = .ok (some ⟨2025, 2, 28⟩) ∧
    find_next_due_date ⟨2025, 1, 10⟩ (some .days) (some 1) none 6 = .ok (some ⟨2025, 1, 11⟩) := by
  have h1 := next_date_daily_monthly_yearly ⟨2025, 1, 31⟩ 1 none 6 (by decide) (by decide)
  have h2 := next_date_daily_monthly_yearly ⟨2024, 2, 29⟩ 1 none 6 (by decide) (by decide)
  have h3 := next_date_daily_monthly_yearly ⟨2025, 1, 10⟩ 1 none 6 (by decide) (by decide)
  exact ⟨h1.2.2.2.1.trans (by decide), h2.2.2.2.2.trans (by decide), h3.1.trans (by decide)⟩

/-- Claim C3: completing an active task that carries a rule and a due date
yields exactly one successor — not completed, due on the rule's next date
computed from the original due date, carrying the same rule, title, note and
importance — and mutates the original to completed with its rule cleared;
completing an active task without a rule yields no successor and marks the
original completed. -/
theorem complete_behavior :
    (∀ (t : Task) (d nd : Date) (rt : RepeatType),
        t.is_completed = false → t.due_date = some d → t.repeat_type = some rt →
        find_next_due_date d t.repeat_interval t.repeat_factor t.repeat_allowed_days
            START_WEEKDAY = .ok (some nd) →
        Task.complete t =
          ({ t with is_completed := true, repeat_type := none, repeat_interval := none,
                    repeat_factor := none, repeat_allowed_days := none },
           .ok (some ⟨t.title, t.note, [], some nd, false, t.is_important, some rt,
                      t.repeat_interval, t.repeat_factor, t.repeat_allowed_days⟩))) ∧
    (∀ t : Task, t.is_completed = false → t.repeat_type = none →
        Task.complete t =
          ({ t with is_completed := true, repeat_type := none, repeat_interval := none,
                    repeat_factor := none, repeat_allowed_days := none },
           .ok none)) := by
  constructor
  · intro t d nd rt hic hdue hrt hfind
    simp [Task.complete, hrt, hdue, hfind, Task.clear_repeat_config]
  · intro t hic hrt
    simp [Task.complete, hrt, Task.clear_repeat_config]

/-- Witness for C3: the spec's own example (Daily, interval 1, due Jan 10 2025
gives a successor due Jan 11 2025) and a no-rule task. -/
theorem complete_behavior_witness :
    Task.complete ⟨some "gym", none, [], some ⟨2025, 1, 10⟩, false, true,
        some .daily, some .days, some 1, none⟩ =
      (⟨some "gym", none, [], some ⟨2025, 1, 10⟩, true, true, none, none, none, none⟩,
       .ok (some ⟨some "gym", none, [], some ⟨2025, 1, 11⟩, false, true,
                  some .daily, some .days, some 1, none⟩)) ∧
    Task.complete ⟨some "once", none, [], none, false, false, none, none, some 2, none⟩ =
      (⟨some "once", none, [], none, true, false, none, none, none, none⟩, .ok none) := by
  constructor
  · exact (complete_behavior.1
      ⟨some "gym", none, [], some ⟨2025, 1, 10⟩, false, true, some .daily, some .days, some 1, none⟩
      ⟨2025, 1, 10⟩ ⟨2025, 1, 11⟩ .daily rfl rfl rfl (by decide)).trans (by decide)
  · exact (complete_behavior.2
      ⟨some "once", none, [], none, false, false, none, none, some 2, none⟩ rfl rfl).trans (by decide)

/-- Claim C4 (code bug): with a Weekly interval-1 rule allowing exactly the
reference date's weekday, `find_next_due_date` does return the reference plus 7
days — but when that weekday is Sunday (the configured week start),
`Repeat.find_next_date` returns no result instead of `t + 7 days`, because its
scan loops skip the week-start day offset. 2025-01-05 is a Sunday. -/
theorem weekly_singleton_sunday_divergence :
    Date.weekday ⟨2025, 1, 5⟩ = 6 ∧
    find_next_due_date ⟨2025, 1, 5⟩ (some .weeks) (some 1) (some [6]) START_WEEKDAY =
      .ok (some (addDays ⟨2025, 1, 5⟩ 7)) ∧
    addDays ⟨2025, 1, 5⟩ 7 = ⟨2025, 1, 12⟩ ∧
    Repeat.find_next_date ⟨.weeks, 1, some [6]⟩ ⟨2025, 1, 5⟩ START_WEEKDAY = none := by
  refine ⟨?_, ?_, ?_, ?_⟩ <;> decide

/-- Amended claim C6: the service-level `complete_task` rejects completing an
already-completed task before performing any mutation, but raises Python's
builtin `ValueError`, not a BusinessRuleViolation; the domain-level
`Task.complete` itself performs no already-completed check at all. -/
theorem complete_task_rejects_completed :
    ∀ t : Task, t.is_completed = true → complete_task t = .error .valueError := by
  intro t h
  simp [complete_task, h]

/-- Witness for the amended C6. -/
theorem complete_task_rejects_completed_witness :
    complete_task ⟨some "w", none, [], none, true, false, none, none, none, none⟩ =
      .error .valueError :=
  complete_task_rejects_completed
    ⟨some "w", none, [], none, true, false, none, none, none, none⟩ rfl

/-- Counterexample to C6 as stated: on an already-completed task the
domain-level `complete()` does not fail (it returns normally with no
successor), and the service-level guard raises `ValueError`, which is not the
claimed BusinessRuleViolation. -/
theorem complete_already_completed_does_not_fail :
    Task.complete ⟨some "done", none, [], some ⟨2025, 1, 10⟩, true, false, none, none, none, none⟩ =
      (⟨some "done", none, [], some ⟨2025, 1, 10⟩, true, false, none, none, none, none⟩, .ok none) ∧
    complete_task ⟨some "done", none, [], some ⟨2025, 1, 10⟩, true, false, none, none, none, none⟩ =
      .error .valueError ∧
    DomainError.valueError ≠ DomainError.businessRuleViolation := by
  refine ⟨rfl, rfl, ?_⟩
  decide

/-- Amended claim C7: `Task` construction performs no validation whatsoever —
the dataclass has no validation hook — so a task with a repeat configuration
present and no due date is accepted rather than rejected. -/
theorem task_init_never_validates :
    ∀ (title note : Option String) (steps : List Step) (ic ii : Bool)
      (rt : RepeatType) (ri : Option RepeatInterval) (rf : Option Int)
      (rad : Option (List Nat)),
      task_init title note steps none ic ii (some rt) ri rf rad =
        .ok ⟨title, note, steps, none, ic, ii, some rt, ri, rf, rad⟩ := by
  intro title note steps ic ii rt ri rf rad
  rfl

/-- Counterexample to C7 as stated: constructing a Task with a repeat
configuration but no due date succeeds instead of failing with an
invalid-state error. -/
theorem task_init_accepts_repeat_without_due_date :
    task_init (some "water plants") none [] none false false (some .daily)
        (some .days) (some 1) none =
      .ok ⟨some "water plants", none, [], none, false, false, some .daily,
           some .days, some 1, none⟩ ∧
    task_init (some "water plants") none [] none false false (some .daily)
        (some .days) (some 1) none ≠ .error .invalidEntityState := by
  constructor
  · rfl
  · decide

/-- Amended claim C8: `is_due` takes no explicit "now" parameter — it reads
`datetime.now()` inside the method. Modelling that hidden read as an input, the
query is a deterministic function of the task state and the clock value: it is
true exactly when the task has a due date that the clock has reached. -/
theorem is_due_characterization :
    ∀ (t : Task) (now : Date),
      Task.is_due t now = true ↔
        ∃ d, t.due_date = some d ∧ d.dayNumber ≤ now.dayNumber := by
  intro t now
  rcases hdd : t.due_date with _ | d <;> simp [Task.is_due, hdd]

/-- Counterexample to C8 as stated: the result of `is_due` depends on the
hidden wall-clock read — the same task state yields different answers for
different values of the internally-read clock. -/
theorem is_due_reads_hidden_clock :
    Task.is_due ⟨some "pay rent", none, [], some ⟨2025, 1, 10⟩, false, false,
        none, none, none, none⟩ ⟨2025, 1, 9⟩ = false ∧
    Task.is_due ⟨some "pay rent", none, [], some ⟨2025, 1, 10⟩, false, false,
        none, none, none, none⟩ ⟨2025, 1, 10⟩ = true := by
  constructor <;> decide

/-- Claim C9: `complete()` leaves the original task's title, note, due date,
importance flag and steps unchanged on every path (with or without a rule, and
on the error paths); it only touches `is_completed` and the repeat
configuration fields. -/
theorem complete_frame :
    ∀ t : Task,
      (Task.complete t).1.title = t.title ∧
      (Task.complete t).1.note = t.note ∧
      (Task.complete t).1.due_date = t.due_date ∧
      (Task.complete t).1.is_important = t.is_important ∧
      (Task.complete t).1.steps = t.steps := by
  intro t
  rcases hrt : t.repeat_type with _ | rt
  · simp [Task.complete, hrt, Task.clear_repeat_config]
  · rcases hdd : t.due_date with _ | d
    · simp [Task.complete, hrt, hdd]
    · rcases hf : find_next_due_date d t.repeat_interval t.repeat_factor
          t.repeat_allowed_days START_WEEKDAY with e | nd
      · simp [Task.complete, hrt, hdd, hf]
      · simp [Task.complete, hrt, hdd, hf, Task.clear_repeat_config]

theorem foldl_parseDigitsAux_error (l : List Char) (e : DomainError) :
    l.foldl parseDigitsAux (.error e) = .error e := by
  induction l with
  | nil => rfl
  | cons c l ih => simpa [parseDigitsAux] using ih

theorem parseDigits_foldl_ok (l : List Char) :
    ∀ A0 A : Finset Nat, l.foldl parseDigitsAux (.ok A0) = .ok A →
      l.foldl (fun B c => insert (c.toNat - 48) B) A0 = A := by
  induction l with
  | nil =>
    intro A0 A h
    simpa using h
  | cons c l ih =>
    intro A0 A h
    by_cases hc : c.isDigit
    · rw [List.foldl_cons] at h
      have he : parseDigitsAux (.ok A0) c = .ok (insert (c.toNat - 48) A0) := by
        simp [parseDigitsAux, hc]
      rw [he] at h
      rw [List.foldl_cons]
      exact ih _ _ h
    · exfalso
      rw [List.foldl_cons] at h
      have he : parseDigitsAux (.ok A0) c = .error .invalidEntityState := by
        simp [parseDigitsAux, hc]
      rw [he, foldl_parseDigitsAux_error] at h
      exact absurd h (by simp)

theorem parseDigits_ok (s : String) (A : Finset Nat) (h : parseDigits s = .ok A) :
    s.data.foldl (fun B c => insert (c.toNat - 48) B) ∅ = A :=
  parseDigits_foldl_ok s.data ∅ A h

theorem mkPlainRepeat_ok (f : Frequency) (io : Option Int) (r : RepeatRule)
    (h : mkPlainRepeat f io = .ok r) :
    ∃ i, io = some i ∧ 1 ≤ i ∧ r = ⟨f, i, none⟩ := by
  cases io with
  | none => simp [mkPlainRepeat, checkIntervalNew] at h
  | some i =>
    by_cases hi : i < 1
    · simp [mkPlainRepeat, checkIntervalNew, hi] at h
    · refine ⟨i, rfl, by omega, ?_⟩
      have h2 : (Except.ok (⟨f, i, none⟩ : RepeatRule) : Except DomainError RepeatRule)
          = .ok r := by
        rw [show (Except.ok (⟨f, i, none⟩ : RepeatRule) : Except DomainError RepeatRule)
            = mkPlainRepeat f (some i) by simp [mkPlainRepeat, checkIntervalNew, hi]]
        exact h
      simpa using h2.symm

theorem mkWeeklyRepeat_ok (io : Option Int) (digits : Option String) (r : RepeatRule)
    (h : mkWeeklyRepeat io digits = .ok r) :
    ∃ i s A, io = some i ∧ 1 ≤ i ∧ digits = some s ∧ parseDigits s = .ok A ∧
      r = ⟨.weekly, i, some A⟩ := by
  cases io with
  | none => simp [mkWeeklyRepeat, checkIntervalNew] at h
  | some i =>
    by_cases hi : i < 1
    · simp [mkWeeklyRepeat, checkIntervalNew, hi] at h
    · cases digits with
      | none => simp [mkWeeklyRepeat, checkIntervalNew, hi] at h
      | some s =>
        by_cases hs : s.length = 0
        · simp [mkWeeklyRepeat, checkIntervalNew, hi, hs] at h
        · cases hA : parseDigits s with
          | error e => simp [mkWeeklyRepeat, checkIntervalNew, hi, hs, hA] at h
          | ok A =>
            by_cases hw : ∃ w ∈ A, 6 < w
            · simp [mkWeeklyRepeat, checkIntervalNew, hi, hs, hA, hw] at h
            · refine ⟨i, s, A, rfl, by omega, rfl, hA, ?_⟩
              have h2 : (Except.ok (⟨.weekly, i, some A⟩ : RepeatRule) :
                  Except DomainError RepeatRule) = .ok r := by
                rw [show (Except.ok (⟨.weekly, i, some A⟩ : RepeatRule) :
                    Except DomainError RepeatRule) = mkWeeklyRepeat (some i) (some s) by
                  simp [mkWeeklyRepeat, checkIntervalNew, hi, hs, hA, hw]]
                exact h
              simpa using h2.symm

/-- Amended claim C5: for every input triple the factory accepts in which a
weekday-digit string is supplied only for the Weekly frequency, decomposing the
built rule returns the same frequency code and interval together with the
canonical form of the digits (set of digits, serialized ascending, duplicates
collapsed, insertion order irrelevant); non-Weekly triples that do carry a
digit string are also accepted, but the digits are discarded and do not
round-trip. -/
theorem create_decompose_roundtrip :
    ∀ (code : Nat) (i : Int) (digits : Option String) (r : RepeatRule),
      create_repeat (some code) (some i) digits = .ok (some r) →
      (code = 2 ∨ digits = none) →
      decompose (some r) = (some code, some i, digits.map canonicalDigits) := by
  intro code i digits r h hcd
  simp only [create_repeat] at h
  rw [if_neg (by simp)] at h
  by_cases h0 : code = 0
  · subst h0
    rw [if_pos rfl] at h
    split at h
    · simp at h
    · rename_i r' hr'
      simp only [Except.ok.injEq, Option.some.injEq] at h
      subst h
      obtain ⟨i', hi', hge, hr⟩ := mkPlainRepeat_ok _ _ _ hr'
      obtain rfl : i' = i := by
        injection hi' with hii
        exact hii.symm
      subst hr
      rcases hcd with hc | hdn
      · exact absurd hc (by decide)
      · subst hdn
        simp [decompose, Frequency.code]
  · rw [if_neg h0] at h
    by_cases h1 : code = 1
    · subst h1
      rw [if_pos rfl] at h
      split at h
      · simp at h
      · rename_i r' hr'
        simp only [Except.ok.injEq, Option.some.injEq] at h
        subst h
        obtain ⟨i', hi', hge, hr⟩ := mkPlainRepeat_ok _ _ _ hr'
        obtain rfl : i' = i := by
          injection hi' with hii
          exact hii.symm
        subst hr
        rcases hcd with hc | hdn
        · exact absurd hc (by decide)
        · subst hdn
          simp [decompose, Frequency.code]
    · rw [if_neg h1] at h
      by_cases h2 : code = 2
      · subst h2
        rw [if_pos rfl] at h
        split at h
        · simp at h
        · rename_i r' hr'
          simp only [Except.ok.injEq, Option.some.injEq] at h
          subst h
          obtain ⟨i', s, A, hi', hge, hds, hA, hr⟩ := mkWeeklyRepeat_ok _ _ _ hr'
          obtain rfl : i' = i := by
            injection hi' with hii
            exact hii.symm
          subst hr
          subst hds
          have hcanon : canonicalDigits s = set_weekdays_to_str_weekdays A := by
            unfold canonicalDigits
            rw [parseDigits_ok s A hA]
          simp [decompose, Frequency.code, hcanon]
      · rw [if_neg h2] at h
        by_cases h3 : code = 3
        · subst h3
          rw [if_pos rfl] at h
          split at h
          · simp at h
          · rename_i r' hr'
            simp only [Except.ok.injEq, Option.some.injEq] at h
            subst h
            obtain ⟨i', hi', hge, hr⟩ := mkPlainRepeat_ok _ _ _ hr'
            obtain rfl : i' = i := by
              injection hi' with hii
              exact hii.symm
            subst hr
            rcases hcd with hc | hdn
            · exact absurd hc (by decide)
            · subst hdn
              simp [decompose, Frequency.code]
        · rw [if_neg h3] at h
          simp at h

/-- Witness for the amended C5: the Weekly triple with out-of-order digits
"53" round-trips to its canonical serialization. -/
theorem create_decompose_roundtrip_witness :
    create_repeat (some 2) (some 1) (some "53") =
      .ok (some ⟨.weekly, 1, some {3, 5}⟩) ∧
    decompose (some ⟨.weekly, 1, some {3, 5}⟩) =
      (some 2, some 1, some (canonicalDigits "53")) := by
  have hc : create_repeat (some 2) (some 1) (some "53") =
      .ok (some ⟨.weekly, 1, some {3, 5}⟩) := by decide
  exact ⟨hc, create_decompose_roundtrip 2 1 (some "53") ⟨.weekly, 1, some {3, 5}⟩ hc (Or.inl rfl)⟩

/-- Counterexample to C5 as stated: the factory accepts the triple
`(3, 1, "135")` (Daily with a digit string), but the digits are silently
dropped, so decomposing the built rule yields no digit string rather than the
canonical form `"135"` of the input digits. -/
theorem create_decompose_digits_dropped :
    create_repeat (some 3) (some 1) (some "135") = .ok (some ⟨.daily, 1, none⟩) ∧
    decompose (some ⟨.daily, 1, none⟩) = (some 3, some 1, none) ∧
    canonicalDigits "135" = "135" ∧
    (none : Option String) ≠ some (canonicalDigits "135") := by
  refine ⟨by decide, by decide, by decide, by decide⟩

/-- Claim C10: `set_due_date` with an absent due date clears the whole repeat
configuration — all four repeat fields become `None` — so this mutator never
leaves a task that has a repeat configuration but no due date. -/
theorem set_due_date_none_clears_repeat :
    ∀ (t : Task) (now : Date),
      Task.set_due_date t now none =
        .ok ⟨t.title, t.note, t.steps, none, t.is_completed, t.is_important,
             none, none, none, none⟩ := by
  intro t now
  rfl

end Sumire
